import Mathlib

/-!
Verification of the Korean Keyboard Password Generator (`app.py`).

The program is embedded shallowly:

* Python strings are Lean `String`s (iteration is over `String.data`,
  `len` is `String.length`; both count Unicode code points, as CPython does).
* `str.isalpha` and single-character `str.upper` consult the Unicode
  database; they are modelled by `pyIsAlpha` and `pyUpperChar`, exact on the
  character ranges this development touches (ASCII, the Latin-1 sharp s,
  Hangul compatibility jamo, precomposed Hangul syllables).
* `random.choice(idxs)` is modelled by an extra `choice : Nat` argument:
  the element picked is `idxs[choice % idxs.length]`, so every possible
  outcome of the random draw is reached as `choice` ranges over `Nat`.
* The network translator and `time.sleep` are modelled by an oracle of
  per-attempt outcomes; the embedding additionally counts translator calls
  and sleeps so that retry bounds are statable.
* The `hgtk` Hangul library is a dependency whose code is not part of this
  repository; its checker/decomposer are modelled from the spec (see
  `is_hangul` and `decompose`).
-/

/-- Model of Python `str.isspace` on one character, restricted to the ASCII
whitespace characters, which is what `str.strip()` removes from the inputs
this system handles. -/
def pyIsSpace (c : Char) : Bool :=
  c = ' ' ∨ c = '\t' ∨ c = '\n' ∨ c = '\r' ∨ c = '\x0b' ∨ c = '\x0c'

/-- Model of Python `str.strip()`: drop whitespace from both ends. -/
def pyStrip (s : String) : String :=
  String.mk (((s.data.dropWhile pyIsSpace).reverse.dropWhile pyIsSpace).reverse)

/-- Model of Python `str.isalpha` on one character.  Exact on the ranges this
development uses: ASCII letters, the Latin-1 sharp s (U+00DF, alphabetic in
Python), Hangul compatibility jamo U+3131..U+3163 (alphabetic in Python),
and precomposed Hangul syllables U+AC00..U+D7A3 (alphabetic in Python).
Characters outside these ranges are treated as non-alphabetic; no claim in
this development depends on the predicate outside the listed ranges. -/
def pyIsAlpha (c : Char) : Bool :=
  ('a' ≤ c ∧ c ≤ 'z') ∨ ('A' ≤ c ∧ c ≤ 'Z') ∨ c = 'ß' ∨
    (0x3131 ≤ c.toNat ∧ c.toNat ≤ 0x3163) ∨
    (0xAC00 ≤ c.toNat ∧ c.toNat ≤ 0xD7A3)

/-- Model of Python `str.upper` applied to a one-character string.  CPython
uses the full Unicode uppercase mapping: ASCII lowercase letters map to the
corresponding uppercase letter, and the sharp s expands to two characters
(in Python, the uppercase of the sharp s is the two-letter string SS).
Every other character this development touches (digits, punctuation, Hangul
jamo and syllables, uppercase letters) is unchanged by `str.upper`. -/
def pyUpperChar (c : Char) : String :=
  if c = 'ß' then ("SS")
  else if 'a' ≤ c ∧ c ≤ 'z' then String.singleton (Char.ofNat (c.toNat - 32))
  else String.singleton c

/-- `.replace(" ", "")` from `app.py` lines 122-123: remove every space. -/
def removeSpaces (s : String) : String :=
  String.mk (s.data.filter (fun c => c ≠ ' '))

/-- `JAMO_TO_KEYBOARD` from `app.py` lines 46-54, in source order.  A Python
dict with pairwise-distinct keys is faithfully represented as an association
list. -/
def JAMO_TO_KEYBOARD : List (Char × String) :=
  [('ㄱ', "r"), ('ㄲ', "R"), ('ㄴ', "s"), ('ㄷ', "e"), ('ㄸ', "E"), ('ㄹ', "f"),
   ('ㅁ', "a"), ('ㅂ', "q"), ('ㅃ', "Q"), ('ㅅ', "t"), ('ㅆ', "T"), ('ㅇ', "d"),
   ('ㅈ', "w"), ('ㅉ', "W"), ('ㅊ', "c"), ('ㅋ', "z"), ('ㅌ', "x"), ('ㅍ', "v"), ('ㅎ', "g"),
   ('ㅏ', "k"), ('ㅐ', "o"), ('ㅑ', "i"), ('ㅒ', "O"), ('ㅓ', "j"), ('ㅔ', "p"), ('ㅕ', "u"),
   ('ㅖ', "P"), ('ㅗ', "h"), ('ㅘ', "hk"), ('ㅙ', "ho"), ('ㅚ', "hl"), ('ㅛ', "y"),
   ('ㅜ', "n"), ('ㅝ', "nj"), ('ㅞ', "np"), ('ㅟ', "nl"), ('ㅠ', "b"), ('ㅡ', "m"),
   ('ㅢ', "ml"), ('ㅣ', "l")]

/-- `JAMO_TO_KEYBOARD.get(j, j)` from `app.py` lines 82-85: look a jamo up in
the table, falling back to the glyph itself when it is absent. -/
def jamoGet (j : Char) : String :=
  (JAMO_TO_KEYBOARD.lookup j).getD (String.singleton j)

/-- Modelled from the spec: the 19 initial consonants of the standard Unicode
Hangul decomposition, in canonical order.  The decomposition itself lives in
the external `hgtk` library (`hgtk.letter.decompose`), whose code is not in
this repository; the spec fixes the standard algorithm and its ordered jamo
tables. -/
def CHOSUNG : List Char :=
  ['ㄱ', 'ㄲ', 'ㄴ', 'ㄷ', 'ㄸ', 'ㄹ', 'ㅁ', 'ㅂ', 'ㅃ', 'ㅅ', 'ㅆ', 'ㅇ',
   'ㅈ', 'ㅉ', 'ㅊ', 'ㅋ', 'ㅌ', 'ㅍ', 'ㅎ']

/-- Modelled from the spec: the 21 medial vowels in canonical order. -/
def JUNGSUNG : List Char :=
  ['ㅏ', 'ㅐ', 'ㅑ', 'ㅒ', 'ㅓ', 'ㅔ', 'ㅕ', 'ㅖ', 'ㅗ', 'ㅘ', 'ㅙ', 'ㅚ',
   'ㅛ', 'ㅜ', 'ㅝ', 'ㅞ', 'ㅟ', 'ㅠ', 'ㅡ', 'ㅢ', 'ㅣ']

/-- Modelled from the spec: the 27 final consonants in canonical order
(final index 0 of the standard algorithm means no final; index k of 1..27
names entry k-1 of this table). -/
def JONGSUNG : List Char :=
  ['ㄱ', 'ㄲ', 'ㄳ', 'ㄴ', 'ㄵ', 'ㄶ', 'ㄷ', 'ㄹ', 'ㄺ', 'ㄻ', 'ㄼ', 'ㄽ',
   'ㄾ', 'ㄿ', 'ㅀ', 'ㅁ', 'ㅂ', 'ㅄ', 'ㅅ', 'ㅆ', 'ㅇ', 'ㅈ', 'ㅊ', 'ㅋ',
   'ㅌ', 'ㅍ', 'ㅎ']

/-- Modelled from the spec: classification of a character as a composed
Hangul syllable — a code point of the precomposed Hangul syllables block
U+AC00..U+D7A3 (`hgtk.checker.is_hangul` guard on `app.py` line 79, as the
spec fixes it: the composed precomposed syllable range, not the standalone
jamo range). -/
def is_hangul (c : Char) : Bool :=
  0xAC00 ≤ c.toNat ∧ c.toNat ≤ 0xD7A3

/-- Modelled from the spec: `hgtk.letter.decompose` (`app.py` line 81).  For
a syllable-block character, the offset from the block base is divided to
recover the initial index (0-18), medial index (0-20) and final index
(0-27, 0 meaning no final consonant); each index names a glyph in the fixed
ordered tables.  For any other character decomposition is not attempted. -/
def decompose (c : Char) : Option (Char × Char × Option Char) :=
  if is_hangul c then
    let off := c.toNat - 0xAC00
    some (CHOSUNG.getD (off / 588) c, JUNGSUNG.getD (off % 588 / 28) c,
      if off % 28 = 0 then none else some (JONGSUNG.getD (off % 28 - 1) c))
  else none

/-- Modelled from the spec: re-composition of a jamo triple into a syllable
code point, the inverse direction of the round-trip law (initial index times
588 plus medial index times 28 plus final index, offset from the block
base). -/
def compose (i m : Char) (f : Option Char) : Option Char :=
  if CHOSUNG.contains i && JUNGSUNG.contains m &&
      f.all (fun fc => JONGSUNG.contains fc) then
    let fi := match f with
      | none => 0
      | some fc => JONGSUNG.indexOf fc + 1
    some (Char.ofNat (0xAC00 + 588 * CHOSUNG.indexOf i + 28 * JUNGSUNG.indexOf m + fi))
  else none

/-- The per-character emission of `korean_to_keyboard_typing` (`app.py`
lines 78-89): a composed Hangul syllable is decomposed and each jamo looked
up (the final only when present); any other character passes through. -/
def translitChar (ch : Char) : String :=
  match decompose ch with
  | some (i, m, f) =>
      jamoGet i ++ jamoGet m ++ (match f with
        | some fc => jamoGet fc
        | none => (""))
  | none => String.singleton ch

/-- `korean_to_keyboard_typing` from `app.py` lines 75-90: map each input
character to its emission and concatenate in order. -/
def korean_to_keyboard_typing (hangul_text : String) : String :=
  String.join (hangul_text.data.map translitChar)

/-- The candidate positions of `randomly_capitalize_one_letter` (`app.py`
line 93): indices of the alphabetic characters. -/
def alphaIdxs (cs : List Char) : List Nat :=
  (cs.enum.filter (fun p => pyIsAlpha p.2)).map Prod.fst

/-- The alphabetic index picked by `random.choice(idxs)` on `app.py`
line 96, the draw modelled by `choice`: element `choice % idxs.length` of
the candidate list, so every element is reached as `choice` varies. -/
def chosenIdx (cs : List Char) (choice : Nat) : Nat :=
  (alphaIdxs cs).getD (choice % (alphaIdxs cs).length) 0

/-- `randomly_capitalize_one_letter` on the character list, `choice`
standing for the random draw (`app.py` lines 92-97): if no index is
alphabetic return the input, otherwise uppercase the character at the chosen
alphabetic index, splicing it between the slices before and after it. -/
def capData (cs : List Char) (choice : Nat) : List Char :=
  if (alphaIdxs cs).isEmpty then cs
  else
    cs.take (chosenIdx cs choice) ++
      (pyUpperChar (cs.getD (chosenIdx cs choice) ' ')).data ++
      cs.drop (chosenIdx cs choice + 1)

/-- `randomly_capitalize_one_letter` from `app.py` lines 92-97. -/
def randomly_capitalize_one_letter (password : String) (choice : Nat) : String :=
  String.mk (capData password.data choice)

/-- Outcome of one attempt of the external translation call. -/
inductive TranslationAttempt
  | fail
  | ok (text : String)
deriving DecidableEq

/-- The retry loop of `translate_to_korean` (`app.py` lines 62-72), over an
oracle giving each attempt's outcome.  Returns the result together with the
number of translator calls made and the number of sleeps taken (each sleep
is `delay_sec`, 0.4 seconds in the source).  Each iteration first returns
the word unchanged when it is empty (before any call), then calls the
translator: a successful call returns its text, or the original word when
that text is empty; a failed call sleeps and retries. -/
def translateLoop (oracle : Nat → TranslationAttempt) (word : String) :
    Nat → Nat → String × Nat × Nat
  | 0, _ => (word, 0, 0)
  | n + 1, i =>
    if word = ("") then (word, 0, 0)
    else
      match oracle i with
      | TranslationAttempt.ok t => (if t = ("") then word else t, 1, 0)
      | TranslationAttempt.fail =>
          let r := translateLoop oracle word n (i + 1)
          (r.1, r.2.1 + 1, r.2.2 + 1)

/-- Milliseconds of the fixed inter-attempt delay (`delay_sec = 0.4` on
`app.py` line 59). -/
def delay_ms : Nat := 400

/-- `translate_to_korean` from `app.py` lines 59-72 with its default
`retries = 3`. -/
def translate_to_korean (oracle : Nat → TranslationAttempt) (word : String) :
    String × Nat × Nat :=
  translateLoop oracle word 3 0

/-- `GenerateRequest` (`app.py` lines 32-35); a field is `none` when the
caller omitted it, which `(data.x or "")` on lines 107-109 turns into the
empty string. -/
structure GenerateRequest where
  word1 : Option String
  symbol : Option String
  word2 : Option String

/-- `GenerateResponse` from `app.py` lines 37-43. -/
structure GenerateResponse where
  korean_word1 : String
  korean_word2 : String
  keyboard_word1 : String
  keyboard_word2 : String
  raw_password : String
  final_password : String
deriving DecidableEq

/-- Result of the `/generate` handler: an HTTP error with status and detail,
or a success payload. -/
inductive GenerateResult
  | error (status : Nat) (detail : String)
  | ok (r : GenerateResponse)
deriving DecidableEq

/-- The f-string on `app.py` line 126. -/
def raw_password (keyboard_word1 symbol keyboard_word2 : String) : String :=
  keyboard_word1 ++ symbol ++ keyboard_word2

/-- The validation predicate of `generate` (`app.py` lines 112-115), on the
stripped fields. -/
def validationFails (word1 word2 symbol : String) : Bool :=
  word1 = ("") ∨ word2 = ("") ∨ symbol = ("") ∨
    word1.length > 50 ∨ word2.length > 50 ∨ symbol.length > 5

/-- `generate` from `app.py` lines 106-136.  `tr` is the observable result
of `translate_to_korean` for a word (network-dependent), `choice` the random
draw of the capitalization step.  Besides the handler's result, the list of
words passed to the translator is returned, so that "no translation call is
made" is statable. -/
def generate (tr : String → String) (choice : Nat) (data : GenerateRequest) :
    GenerateResult × List String :=
  let word1 := pyStrip (data.word1.getD (""))
  let word2 := pyStrip (data.word2.getD (""))
  let symbol := pyStrip (data.symbol.getD (""))
  if word1 = ("") ∨ word2 = ("") ∨ symbol = ("") then
    (GenerateResult.error 400 ("word1, symbol, and word2 are required"), [])
  else if word1.length > 50 ∨ word2.length > 50 ∨ symbol.length > 5 then
    (GenerateResult.error 400 ("Inputs too long (limits: word<=50, symbol<=5)"), [])
  else
    let korean_word1 := tr word1
    let korean_word2 := tr word2
    let keyboard_word1 := removeSpaces (korean_to_keyboard_typing korean_word1)
    let keyboard_word2 := removeSpaces (korean_to_keyboard_typing korean_word2)
    let raw := raw_password keyboard_word1 symbol keyboard_word2
    let final := randomly_capitalize_one_letter raw choice
    (GenerateResult.ok
      { korean_word1 := korean_word1, korean_word2 := korean_word2,
        keyboard_word1 := keyboard_word1, keyboard_word2 := keyboard_word2,
        raw_password := raw, final_password := final },
     [word1, word2])

/-! ### Lemmas about the capitalization step -/

lemma mem_alphaIdxs {cs : List Char} {i : Nat} (h : i ∈ alphaIdxs cs) :
    i < cs.length ∧ pyIsAlpha (cs.getD i ' ') = true := by
  rcases List.mem_map.1 h with ⟨p, hp, rfl⟩
  rcases List.mem_filter.1 hp with ⟨he, hal⟩
  rcases List.getElem?_eq_some.1 (List.mem_enum_iff_getElem?.1 he) with ⟨hlt, hget⟩
  exact ⟨hlt, by rw [List.getD_eq_getElem _ _ hlt, hget]; exact hal⟩

lemma alphaIdxs_eq_nil {cs : List Char} (h : ∀ c ∈ cs, pyIsAlpha c = false) :
    alphaIdxs cs = [] := by
  have : cs.enum.filter (fun p => pyIsAlpha p.2) = [] := by
    rw [List.filter_eq_nil_iff]
    intro p hp
    rcases List.getElem?_eq_some.1 (List.mem_enum_iff_getElem?.1 hp) with ⟨hlt, hget⟩
    simp [← hget, h _ (List.getElem_mem hlt)]
  simp [alphaIdxs, this]

lemma chosenIdx_mem {cs : List Char} (choice : Nat)
    (h : ¬ (alphaIdxs cs).isEmpty = true) : chosenIdx cs choice ∈ alphaIdxs cs := by
  have hne : alphaIdxs cs ≠ [] := by simpa [List.isEmpty_iff] using h
  have hlen : 0 < (alphaIdxs cs).length := List.length_pos.2 hne
  have hmod : choice % (alphaIdxs cs).length < (alphaIdxs cs).length :=
    Nat.mod_lt _ hlen
  rw [chosenIdx, List.getD_eq_getElem _ _ hmod]
  exact List.getElem_mem hmod

lemma splice_length {cs u : List Char} {i : Nat} (hi : i < cs.length)
    (hu : u.length = 1) :
    (cs.take i ++ u ++ cs.drop (i + 1)).length = cs.length := by
  simp only [List.length_append, List.length_take, List.length_drop, hu]
  omega

lemma splice_getElem_ne {cs u : List Char} {i j : Nat} (hi : i < cs.length)
    (hu : u.length = 1) (hne : j ≠ i) :
    (cs.take i ++ u ++ cs.drop (i + 1))[j]? = cs[j]? := by
  have htl : (cs.take i).length = i := by
    simp only [List.length_take]
    omega
  rcases Nat.lt_or_ge j i with h | h
  · rw [List.getElem?_append, if_pos, List.getElem?_append, if_pos, List.getElem?_take,
      if_pos h]
    · omega
    · simp only [List.length_append, htl, hu]
      omega
  · have h2 : i + 1 ≤ j := by omega
    rw [List.getElem?_append, if_neg, List.getElem?_drop]
    · congr 1
      simp only [List.length_append, htl, hu]
      omega
    · simp only [List.length_append, htl, hu]
      omega

lemma cap_spec (cs : List Char) (choice : Nat)
    (h1 : ∀ c ∈ cs, (pyUpperChar c).length = 1) :
    (capData cs choice).length = cs.length ∧
      ∃ i, (∀ j, j ≠ i → (capData cs choice).getD j ' ' = cs.getD j ' ') ∧
        (capData cs choice ≠ cs →
          i < cs.length ∧ pyIsAlpha (cs.getD i ' ') = true) := by
  by_cases hemp : (alphaIdxs cs).isEmpty = true
  · refine ⟨by rw [capData, if_pos hemp], 0, ?_, ?_⟩
    · intro j _
      rw [capData, if_pos hemp]
    · intro hne
      exact absurd (by rw [capData, if_pos hemp]) hne
  · obtain ⟨hilt, hialpha⟩ := mem_alphaIdxs (chosenIdx_mem choice hemp)
    have hmem : cs.getD (chosenIdx cs choice) ' ' ∈ cs := by
      rw [List.getD_eq_getElem _ _ hilt]
      exact List.getElem_mem hilt
    have hu : ((pyUpperChar (cs.getD (chosenIdx cs choice) ' ')).data).length = 1 :=
      h1 _ hmem
    have hcap : capData cs choice =
        cs.take (chosenIdx cs choice) ++
          (pyUpperChar (cs.getD (chosenIdx cs choice) ' ')).data ++
          cs.drop (chosenIdx cs choice + 1) := by
      rw [capData, if_neg hemp]
    refine ⟨by rw [hcap]; exact splice_length hilt hu, chosenIdx cs choice, ?_,
      fun _ => ⟨hilt, hialpha⟩⟩
    intro j hj
    rw [hcap, List.getD_eq_getElem?_getD, List.getD_eq_getElem?_getD]
    congr 1
    have hu2 : (pyUpperChar (cs[chosenIdx cs choice]?.getD ' ')).data.length = 1 := by
      rw [← List.getD_eq_getElem?_getD]
      exact hu
    rw [List.get?_eq_getElem?]
    exact splice_getElem_ne hilt hu2 hj

/-! ### Lemmas about the translation retry loop -/

lemma translateLoop_counts_le (oracle : Nat → TranslationAttempt) (word : String) :
    ∀ n i, (translateLoop oracle word n i).2.1 ≤ n ∧
      (translateLoop oracle word n i).2.2 ≤ n := by
  intro n
  induction n with
  | zero => intro i; exact ⟨Nat.le_refl 0, Nat.le_refl 0⟩
  | succ n ih =>
    intro i
    unfold translateLoop
    by_cases hw : word = ("")
    · simp [hw]
    · rw [if_neg hw]
      cases h : oracle i with
      | ok t => simp
      | fail =>
        have := ih (i + 1)
        simp only []
        omega

lemma translateLoop_all_fail (oracle : Nat → TranslationAttempt) (word : String) :
    ∀ n i, (∀ j, j < n → oracle (i + j) = TranslationAttempt.fail) →
      (translateLoop oracle word n i).1 = word := by
  intro n
  induction n with
  | zero => intro i _; rfl
  | succ n ih =>
    intro i h
    unfold translateLoop
    by_cases hw : word = ("")
    · rw [if_pos hw]
    · rw [if_neg hw]
      have h0 : oracle i = TranslationAttempt.fail := by
        have := h 0 (Nat.succ_pos n)
        simpa using this
      rw [h0]
      exact ih (i + 1) (fun j hj => by
        have h2 := h (j + 1) (Nat.succ_lt_succ hj)
        have heq : i + 1 + j = i + (j + 1) := by omega
        rw [heq]
        exact h2)

lemma translateLoop_empty_ok (oracle : Nat → TranslationAttempt) (word : String) :
    ∀ n i k, k < n → (∀ j, j < k → oracle (i + j) = TranslationAttempt.fail) →
      oracle (i + k) = TranslationAttempt.ok ("") →
      (translateLoop oracle word n i).1 = word := by
  intro n
  induction n with
  | zero => intro i k hk; omega
  | succ n ih =>
    intro i k hk hfail hok
    unfold translateLoop
    by_cases hw : word = ("")
    · rw [if_pos hw, hw]
    · rw [if_neg hw]
      cases k with
      | zero =>
        rw [Nat.add_zero] at hok
        rw [hok]
        simp
      | succ k =>
        have h0 : oracle i = TranslationAttempt.fail := by
          have := hfail 0 (Nat.succ_pos k)
          simpa using this
        rw [h0]
        exact ih (i + 1) k (by omega)
          (fun j hj => by
            have h2 := hfail (j + 1) (Nat.succ_lt_succ hj)
            have heq : i + 1 + j = i + (j + 1) := by omega
            rw [heq]
            exact h2)
          (by
            have heq : i + 1 + k = i + (k + 1) := by omega
            rw [heq]
            exact hok)

/-- C6: the adapter makes at most 3 translator calls, sleeps at most 3 times
(each sleep being the fixed 400 ms delay), returns the original word when
every attempt fails, returns the original word when the first successful
attempt carries an empty text, and short-circuits an empty input word to an
empty result with no translator call at all. -/
theorem C6_translate_retry_fallback (oracle : Nat → TranslationAttempt) (word : String) :
    (translate_to_korean oracle word).2.1 ≤ 3 ∧
    (translate_to_korean oracle word).2.2 ≤ 3 ∧
    delay_ms = 400 ∧
    ((∀ i, i < 3 → oracle i = TranslationAttempt.fail) →
      (translate_to_korean oracle word).1 = word) ∧
    (∀ k, k < 3 → (∀ j, j < k → oracle j = TranslationAttempt.fail) →
      oracle k = TranslationAttempt.ok ("") →
      (translate_to_korean oracle word).1 = word) ∧
    (word = ("") → translate_to_korean oracle word = (("" : String), 0, 0)) := by
  refine ⟨(translateLoop_counts_le oracle word 3 0).1,
    (translateLoop_counts_le oracle word 3 0).2, rfl, ?_, ?_, ?_⟩
  · intro h
    exact translateLoop_all_fail oracle word 3 0 (fun j hj => by
      simpa using h j hj)
  · intro k hk hfail hok
    exact translateLoop_empty_ok oracle word 3 0 k hk
      (fun j hj => by simpa using hfail j hj) (by simpa using hok)
  · intro hw
    subst hw
    rfl

/-- C6 witness: with an always-failing oracle and a nonempty word, at most 3
calls are made and the word comes back unchanged. -/
theorem C6_translate_retry_fallback_witness :
    (translate_to_korean (fun _ => TranslationAttempt.fail) ("hi")).1 = ("hi") :=
  (C6_translate_retry_fallback (fun _ => TranslationAttempt.fail) ("hi")).2.2.2.1
    (fun _ _ => rfl)

/-- C9: when the password has no alphabetic character the randomized
capitalization is a no-op; the input comes back exactly and no error path
exists. -/
theorem C9_no_alpha_noop (s : String) (choice : Nat)
    (h : ∀ c ∈ s.data, pyIsAlpha c = false) :
    randomly_capitalize_one_letter s choice = s := by
  have h2 : capData s.data choice = s.data := by
    rw [capData, if_pos]
    rw [alphaIdxs_eq_nil h]
    rfl
  show String.mk (capData s.data choice) = s
  rw [h2]

/-- C9 witness: a password of digits and punctuation only is unchanged. -/
theorem C9_no_alpha_noop_witness :
    randomly_capitalize_one_letter ("123!#?") 0 = ("123!#?") :=
  C9_no_alpha_noop ("123!#?") 0 (by decide)

/-- C2 counterexample: length preservation fails on the code as claimed for
every string.  Python uppercases the sharp s to the two-letter SS, so a
one-character password gains a character: the final password of the raw
password consisting of the single sharp s has length 2, not 1. -/
theorem C2_counterexample :
    ¬ ((randomly_capitalize_one_letter ("ß") 0).length = ("ß").length) := by
  decide

/-- C2 (amended): the raw password is the exact three-way concatenation with
nothing added; and for every outcome of the random draw the final password
differs from the raw one in at most one position, that position being
alphabetic in the raw password — with length preservation holding whenever
every character of the raw password uppercases to a single character (true
in particular of ASCII; the sharp s is the exception, see the
counterexample). -/
theorem C2_assemble_spec (keyboard_word1 symbol keyboard_word2 : String)
    (choice : Nat)
    (h : ∀ c ∈ (raw_password keyboard_word1 symbol keyboard_word2).data,
      (pyUpperChar c).length = 1) :
    raw_password keyboard_word1 symbol keyboard_word2 =
      keyboard_word1 ++ symbol ++ keyboard_word2 ∧
    (randomly_capitalize_one_letter
        (raw_password keyboard_word1 symbol keyboard_word2) choice).length =
      (raw_password keyboard_word1 symbol keyboard_word2).length ∧
    ∃ i, (∀ j, j ≠ i →
        (randomly_capitalize_one_letter
          (raw_password keyboard_word1 symbol keyboard_word2) choice).data.getD j ' ' =
        (raw_password keyboard_word1 symbol keyboard_word2).data.getD j ' ') ∧
      (randomly_capitalize_one_letter
          (raw_password keyboard_word1 symbol keyboard_word2) choice ≠
        raw_password keyboard_word1 symbol keyboard_word2 →
        i < (raw_password keyboard_word1 symbol keyboard_word2).length ∧
        pyIsAlpha
          ((raw_password keyboard_word1 symbol keyboard_word2).data.getD i ' ') =
          true) := by
  obtain ⟨hlen, i, hget, halpha⟩ :=
    cap_spec (raw_password keyboard_word1 symbol keyboard_word2).data choice h
  refine ⟨rfl, hlen, i, hget, ?_⟩
  intro hne
  refine halpha ?_
  intro heq
  apply hne
  show String.mk
    (capData (raw_password keyboard_word1 symbol keyboard_word2).data choice) =
    raw_password keyboard_word1 symbol keyboard_word2
  rw [heq]

/-- C2 witness: at the concrete password of the end-to-end scenario with
draw 1, the capitalization preserves the length. -/
theorem C2_assemble_spec_witness :
    (randomly_capitalize_one_letter (raw_password ("wlq") ("!") ("aak")) 1).length =
      (raw_password ("wlq") ("!") ("aak")).length :=
  (C2_assemble_spec ("wlq") ("!") ("aak") 1 (by decide)).2.1

/-! ### The decomposition round trip -/

lemma jamo_table_nodup :
    CHOSUNG.Nodup ∧ JUNGSUNG.Nodup ∧ JONGSUNG.Nodup := by decide

set_option maxRecDepth 4000

lemma chosung_spec : ∀ k, (hk : k < CHOSUNG.length) →
    CHOSUNG.contains (CHOSUNG.get ⟨k, hk⟩) = true ∧
    List.indexOf (CHOSUNG.get ⟨k, hk⟩) CHOSUNG = k := by decide

lemma jungsung_spec : ∀ k, (hk : k < JUNGSUNG.length) →
    JUNGSUNG.contains (JUNGSUNG.get ⟨k, hk⟩) = true ∧
    List.indexOf (JUNGSUNG.get ⟨k, hk⟩) JUNGSUNG = k := by decide

lemma jongsung_spec : ∀ k, (hk : k < JONGSUNG.length) →
    JONGSUNG.contains (JONGSUNG.get ⟨k, hk⟩) = true ∧
    List.indexOf (JONGSUNG.get ⟨k, hk⟩) JONGSUNG = k := by decide

/-- C4: every character of the precomposed Hangul syllables block (all
11172 code points U+AC00..U+D7A3) decomposes to an initial and a medial
always, carries a final jamo exactly when the syllable has a trailing
consonant (offset not divisible by 28), and re-composing the triple
reconstructs the character exactly. -/
theorem C4_decompose_round_trip (c : Char) (h1 : 0xAC00 ≤ c.toNat)
    (h2 : c.toNat ≤ 0xD7A3) :
    ∃ i m f, decompose c = some (i, m, f) ∧
      (f.isSome ↔ (c.toNat - 0xAC00) % 28 ≠ 0) ∧
      compose i m f = some c := by
  have hhan : is_hangul c = true := by
    simp only [is_hangul, decide_eq_true_eq]
    exact ⟨by exact_mod_cast h1, by exact_mod_cast h2⟩
  have hofflt : c.toNat - 0xAC00 < 11172 := by omega
  have hci : c.toNat - 0xAC00 < 588 * 19 := by omega
  have hcilt : (c.toNat - 0xAC00) / 588 < CHOSUNG.length := by
    show _ < 19
    rw [Nat.div_lt_iff_lt_mul (by norm_num)]
    omega
  have hmod : (c.toNat - 0xAC00) % 588 < 588 := Nat.mod_lt _ (by norm_num)
  have hmilt : (c.toNat - 0xAC00) % 588 / 28 < JUNGSUNG.length := by
    show _ < 21
    rw [Nat.div_lt_iff_lt_mul (by norm_num)]
    omega
  have hfi : (c.toNat - 0xAC00) % 28 < 28 := Nat.mod_lt _ (by norm_num)
  have hdec : decompose c =
      some (CHOSUNG.getD ((c.toNat - 0xAC00) / 588) c,
        JUNGSUNG.getD ((c.toNat - 0xAC00) % 588 / 28) c,
        if (c.toNat - 0xAC00) % 28 = 0 then none
        else some (JONGSUNG.getD ((c.toNat - 0xAC00) % 28 - 1) c)) := by
    rw [decompose, if_pos hhan]
  refine ⟨_, _, _, hdec, ?_, ?_⟩
  · by_cases hz : (c.toNat - 0xAC00) % 28 = 0 <;> simp [hz]
  · rw [List.getD_eq_getElem CHOSUNG c hcilt, List.getD_eq_getElem JUNGSUNG c hmilt]
    obtain ⟨hconC, hidxC⟩ := chosung_spec ((c.toNat - 0xAC00) / 588) hcilt
    obtain ⟨hconJ, hidxJ⟩ := jungsung_spec ((c.toNat - 0xAC00) % 588 / 28) hmilt
    rw [List.get_eq_getElem] at hconC hidxC hconJ hidxJ
    by_cases hz : (c.toNat - 0xAC00) % 28 = 0
    · rw [if_pos hz, compose, if_pos (by rw [hconC, hconJ]; rfl)]
      rw [hidxC, hidxJ]
      have harith : 0xAC00 + 588 * ((c.toNat - 0xAC00) / 588) +
          28 * ((c.toNat - 0xAC00) % 588 / 28) + 0 = c.toNat := by
        omega
      simp only [harith, Char.ofNat_toNat]
    · have hflt : (c.toNat - 0xAC00) % 28 - 1 < JONGSUNG.length := by
        show _ < 27
        omega
      rw [if_neg hz, List.getD_eq_getElem JONGSUNG c hflt]
      obtain ⟨hconF, hidxF⟩ := jongsung_spec ((c.toNat - 0xAC00) % 28 - 1) hflt
      rw [List.get_eq_getElem] at hconF hidxF
      rw [compose, if_pos (by rw [hconC, hconJ, Option.all_some, hconF]; rfl)]
      rw [hidxC, hidxJ, hidxF]
      have harith : 0xAC00 + 588 * ((c.toNat - 0xAC00) / 588) +
          28 * ((c.toNat - 0xAC00) % 588 / 28) +
          ((c.toNat - 0xAC00) % 28 - 1 + 1) = c.toNat := by
        omega
      simp only [harith, Char.ofNat_toNat]

/-- C4 witness: the round trip at the syllable of the end-to-end scenario. -/
theorem C4_decompose_round_trip_witness :
    ∃ i m f, decompose ('집') = some (i, m, f) ∧
      (f.isSome ↔ (('집').toNat - 0xAC00) % 28 ≠ 0) ∧
      compose i m f = some ('집') :=
  C4_decompose_round_trip ('집') (by decide) (by decide)

/-- C7: a character outside the precomposed Hangul syllables block — a
standalone jamo, Latin letter, digit, punctuation mark or space — passes
through transliteration unchanged, both as the per-character emission and
as a one-character input string; there is no reject path. -/
theorem C7_non_syllable_passthrough (c : Char) (h : is_hangul c = false) :
    translitChar c = String.singleton c ∧
    korean_to_keyboard_typing (String.singleton c) = String.singleton c := by
  have hd : decompose c = none := by
    rw [decompose, if_neg]
    rw [h]
    exact Bool.false_ne_true
  have h1 : translitChar c = String.singleton c := by
    rw [translitChar, hd]
  refine ⟨h1, ?_⟩
  show String.join [translitChar c] = String.singleton c
  rw [h1]
  rfl

/-- C7 witness: the exclamation mark passes through unchanged. -/
theorem C7_non_syllable_passthrough_witness :
    translitChar ('!') = String.singleton '!' ∧
    korean_to_keyboard_typing (String.singleton '!') = String.singleton '!' :=
  C7_non_syllable_passthrough '!' (by decide)

/-- C8: each doubled consonant maps to the uppercased form of its base
consonant's key, each compound vowel maps to a two-key sequence, and the
syllable with initial and compound medial but no final of the
compound-vowel scenario transliterates to a three-character output from a
one-character input. -/
theorem C8_doubled_and_compound :
    ([('ㄲ', 'ㄱ'), ('ㄸ', 'ㄷ'), ('ㅃ', 'ㅂ'), ('ㅆ', 'ㅅ'), ('ㅉ', 'ㅈ')].all
      (fun p => jamoGet p.1 ==
        String.join ((jamoGet p.2).data.map pyUpperChar))) = true ∧
    (['ㅘ', 'ㅙ', 'ㅚ', 'ㅝ', 'ㅞ', 'ㅟ', 'ㅢ'].all
      (fun v => (jamoGet v).length == 2)) = true ∧
    decompose ('과') = some ('ㄱ', 'ㅘ', none) ∧
    korean_to_keyboard_typing ("과") = ("rhk") ∧
    (korean_to_keyboard_typing ("과")).length = 3 ∧ ("과").length = 1 := by
  decide

/-- C10: the eleven compound-cluster final jamo are absent from the keyboard
map, so a syllable with such a final emits the cluster glyph itself through
the identity fallback — the transliterated output can contain Hangul jamo;
concretely the syllable with initial, medial and cluster final of the claim
transliterates to a Latin pair followed by the cluster glyph. -/
theorem C10_cluster_final_fallback :
    (['ㄳ', 'ㄵ', 'ㄶ', 'ㄺ', 'ㄻ', 'ㄼ', 'ㄽ', 'ㄾ', 'ㄿ', 'ㅀ', 'ㅄ'].all
      (fun fc => (JAMO_TO_KEYBOARD.lookup fc == none) &&
        (jamoGet fc == String.singleton fc))) = true ∧
    korean_to_keyboard_typing ("값") = ("rkㅄ") ∧
    (∀ c i m fc, decompose c = some (i, m, some fc) →
      fc ∈ ['ㄳ', 'ㄵ', 'ㄶ', 'ㄺ', 'ㄻ', 'ㄼ', 'ㄽ', 'ㄾ', 'ㄿ', 'ㅀ', 'ㅄ'] →
      translitChar c = jamoGet i ++ jamoGet m ++ String.singleton fc) := by
  refine ⟨by decide, by decide, ?_⟩
  intro c i m fc hdec hmem
  have hfc : jamoGet fc = String.singleton fc := by
    fin_cases hmem <;> decide
  rw [translitChar, hdec]
  show jamoGet i ++ jamoGet m ++ jamoGet fc =
    jamoGet i ++ jamoGet m ++ String.singleton fc
  rw [hfc]

/-- C10 witness: the fallback at the concrete syllable with cluster final. -/
theorem C10_cluster_final_fallback_witness :
    translitChar ('값') = jamoGet 'ㄱ' ++ jamoGet 'ㅏ' ++ String.singleton 'ㅄ' :=
  (C10_cluster_final_fallback).2.2 '값' 'ㄱ' 'ㅏ' 'ㅄ' (by decide) (by decide)

lemma cap_eq_splice (s : String) (choice : Nat)
    (h : ¬ (alphaIdxs s.data).isEmpty = true) :
    randomly_capitalize_one_letter s choice =
      String.mk (s.data.take (chosenIdx s.data choice) ++
        (pyUpperChar (s.data.getD (chosenIdx s.data choice) ' ')).data ++
        s.data.drop (chosenIdx s.data choice + 1)) := by
  rw [randomly_capitalize_one_letter, capData, if_neg h]

/-- C1 counterexample: the raw password of the end-to-end scenario has 7
characters, not 8 as claimed. -/
theorem C1_counterexample :
    ¬ ((raw_password (korean_to_keyboard_typing ("집")) ("!") ("aak")).length = 8) := by
  decide

/-- C1 (amended): the scenario's syllable transliterates to the three keys
of its initial, medial and final; the raw password is the 7-character
concatenation of the two keyboard words around the symbol; the candidate
positions are exactly the six letter positions (the symbol at position 3 is
excluded); and every outcome of the random draw uppercases exactly one of
those letter positions, producing a password different from the raw one. -/
theorem C1_end_to_end_scenario :
    korean_to_keyboard_typing ("집") = ("wlq") ∧
    raw_password (korean_to_keyboard_typing ("집")) ("!") ("aak") = ("wlq!aak") ∧
    (raw_password (korean_to_keyboard_typing ("집")) ("!") ("aak")).length = 7 ∧
    alphaIdxs (("wlq!aak").data) = [0, 1, 2, 4, 5, 6] ∧
    ∀ choice : Nat, ∃ i ∈ alphaIdxs (("wlq!aak").data),
      randomly_capitalize_one_letter ("wlq!aak") choice =
        String.mk ((("wlq!aak").data.take i) ++
          (pyUpperChar (("wlq!aak").data.getD i ' ')).data ++
          (("wlq!aak").data.drop (i + 1))) ∧
      randomly_capitalize_one_letter ("wlq!aak") choice ≠ ("wlq!aak") := by
  refine ⟨by decide, by decide, by decide, by decide, ?_⟩
  intro choice
  have hemp : ¬ (alphaIdxs (("wlq!aak").data)).isEmpty = true := by decide
  obtain ⟨k, hk, hkeq⟩ : ∃ k, k < 6 ∧ choice % 6 = k :=
    ⟨choice % 6, Nat.mod_lt _ (by norm_num), rfl⟩
  have ha : alphaIdxs (("wlq!aak").data) = [0, 1, 2, 4, 5, 6] := by decide
  have hch : chosenIdx (("wlq!aak").data) choice = [0, 1, 2, 4, 5, 6].getD k 0 := by
    rw [chosenIdx, ha]
    show [0, 1, 2, 4, 5, 6].getD (choice % 6) 0 = _
    rw [hkeq]
  refine ⟨[0, 1, 2, 4, 5, 6].getD k 0, ?_, ?_, ?_⟩
  · rw [ha]
    interval_cases k <;> decide
  · rw [cap_eq_splice _ _ hemp, hch]
  · rw [cap_eq_splice _ _ hemp, hch]
    interval_cases k <;> decide

/-- C3 counterexample: the keyboard table does not have 37 entries. -/
theorem C3_counterexample : ¬ (JAMO_TO_KEYBOARD.length = 37) := by decide

/-- C3 (amended): the keyboard table has exactly 40 entries — the 19 initial
consonants and the 21 medial vowels, the single-consonant final glyphs all
coinciding with initial glyphs — with pairwise-distinct keys, and every
value a Latin-letter sequence of length 1 or 2. -/
theorem C3_mapping_shape :
    JAMO_TO_KEYBOARD.length = 40 ∧
    (JAMO_TO_KEYBOARD.map Prod.fst).Nodup ∧
    (JAMO_TO_KEYBOARD.all (fun p =>
      (CHOSUNG.contains p.1 || JUNGSUNG.contains p.1) &&
      (1 ≤ p.2.length ∧ p.2.length ≤ 2) &&
      p.2.data.all (fun ch =>
        ('a' ≤ ch ∧ ch ≤ 'z') ∨ ('A' ≤ ch ∧ ch ≤ 'Z')))) = true := by
  refine ⟨by decide, by decide, by decide⟩

/-- C5: the handler returns HTTP 400 exactly when a field is empty after
trimming (a missing field counts as empty) or a trimmed field exceeds its
length limit; and on that path processing halts before translation — no
word is handed to the translator and the outcome is independent of both the
translator and the random draw. -/
theorem C5_validation_gate (tr tr2 : String → String) (choice choice2 : Nat)
    (data : GenerateRequest) :
    ((∃ d, (generate tr choice data).1 = GenerateResult.error 400 d) ↔
      validationFails (pyStrip (data.word1.getD ("")))
        (pyStrip (data.word2.getD ("")))
        (pyStrip (data.symbol.getD (""))) = true) ∧
    (validationFails (pyStrip (data.word1.getD ("")))
        (pyStrip (data.word2.getD ("")))
        (pyStrip (data.symbol.getD (""))) = true →
      (generate tr choice data).2 = [] ∧
      generate tr choice data = generate tr2 choice2 data) := by
  simp only [generate]
  split_ifs with h1 h2
  · refine ⟨⟨fun _ => ?_, fun _ => ⟨_, rfl⟩⟩, fun _ => ⟨rfl, rfl⟩⟩
    simp only [validationFails, decide_eq_true_eq]
    tauto
  · refine ⟨⟨fun _ => ?_, fun _ => ⟨_, rfl⟩⟩, fun _ => ⟨rfl, rfl⟩⟩
    simp only [validationFails, decide_eq_true_eq]
    tauto
  · constructor
    · constructor
      · intro hex
        obtain ⟨d, hd⟩ := hex
        simp at hd
      · intro hval
        exfalso
        simp only [validationFails, decide_eq_true_eq] at hval
        tauto
    · intro hval
      exfalso
      simp only [validationFails, decide_eq_true_eq] at hval
      tauto

/-- C5 witness: a request whose first word is whitespace only is rejected
with no word passed to the translator. -/
theorem C5_validation_gate_witness :
    (generate id 0 (GenerateRequest.mk (some ("  ")) (some ("!")) (some ("ab")))).2 = [] :=
  ((C5_validation_gate id id 0 0
    (GenerateRequest.mk (some ("  ")) (some ("!")) (some ("ab")))).2 (by decide)).1

/-- C1 witness: the scenario instantiated at draw 0. -/
theorem C1_end_to_end_scenario_witness :
    ∃ i ∈ alphaIdxs (("wlq!aak").data),
      randomly_capitalize_one_letter ("wlq!aak") 0 =
        String.mk ((("wlq!aak").data.take i) ++
          (pyUpperChar (("wlq!aak").data.getD i ' ')).data ++
          (("wlq!aak").data.drop (i + 1))) ∧
      randomly_capitalize_one_letter ("wlq!aak") 0 ≠ ("wlq!aak") :=
  (C1_end_to_end_scenario).2.2.2.2 0
